import Mathlib

/-!
Verification of the FRR typesafe container library (typesafe.h / typesafe.c).

The containers are embedded shallowly: a container head becomes a Lean
structure whose `elems`/`entries` field is the linked chain(s) read off the
pointer structure, and each generated operation of the C macros becomes a
Lean function translated line by line from the macro body.  The caller-
supplied comparison and hash functions of the `*_MAKEFUNCS` macros become
explicit function parameters (`cmpfn : α → α → Int`, `hashfn : α → Nat`,
C `uint32_t` values are reduced modulo `2 ^ 32`).  Item pointers are
modelled by the element values themselves; concrete instantiations use
distinct values per item, so value equality coincides with the pointer
equality the C code uses.
-/

namespace Typesafe

/-- Modulus of the C `uint32_t` values used for hash values and table sizes. -/
def U32 : Nat := 2 ^ 32

/-! ## Unsorted singly-linked list (`TYPEDLIST_MAKEFUNCS`)

`struct slist_head` holds `first`, `last_next` and `count`.  The chain
reachable from `first` is modelled as the list `elems`; `last_next` is the
address of the final `next` slot and is determined by `elems`, so it has no
separate model field. -/

structure SlistHead (α : Type) where
  elems : List α
  count : Nat
  deriving DecidableEq, Repr

/-- `prefix_init`: zeroed head, `last_next = &first`. -/
def slist_init {α : Type} : SlistHead α := ⟨[], 0⟩

/-- `prefix_add_head`: link `item` in front of `first`, bump `count`. -/
def slist_add_head {α : Type} (h : SlistHead α) (item : α) : SlistHead α :=
  ⟨item :: h.elems, h.count + 1⟩

/-- `prefix_add_tail`: link `item` at `*last_next`, bump `count`. -/
def slist_add_tail {α : Type} (h : SlistHead α) (item : α) : SlistHead α :=
  ⟨h.elems ++ [item], h.count + 1⟩

/-- `prefix_add_after`: the C body picks the insertion slot as
`nextp = after ? &h->sh.first : &after->field.si.next;`
so a non-null `after` selects the list head slot, while a null `after`
dereferences the null anchor pointer (`*nextp` reads through an offset
from address 0).  The fault is modelled as `none`. -/
def slist_add_after {α : Type} (h : SlistHead α) (after : Option α) (item : α) :
    Option (SlistHead α) :=
  match after with
  | some _ => some ⟨item :: h.elems, h.count + 1⟩
  | none => none

/-- The predecessor scan shared by `slist`/`ssort` `_del`: walk the chain
until the slot holding `item` is found and unlink it; `none` if the scan
runs off the end (`!*iter`). -/
def delScan {α : Type} [DecidableEq α] (item : α) : List α → Option (List α)
  | [] => none
  | y :: ys => if y = item then some ys else (delScan item ys).map (y :: ·)

/-- `prefix_del` (unsorted): scan for `item`; if absent, return with the
head untouched, else unlink and decrement `count`. -/
def slist_del {α : Type} [DecidableEq α] (h : SlistHead α) (item : α) : SlistHead α :=
  match delScan item h.elems with
  | none => h
  | some l => ⟨l, h.count - 1⟩

/-- `prefix_pop` (unsorted): return `NULL` on an empty list, else unlink
`first` and decrement `count`. -/
def slist_pop {α : Type} (h : SlistHead α) : Option α × SlistHead α :=
  match h.elems with
  | [] => (none, h)
  | x :: rest => (some x, ⟨rest, h.count - 1⟩)

/-- `prefix_first` (unsorted). -/
def slist_first {α : Type} (h : SlistHead α) : Option α := h.elems.head?

/-- Pop `n` times, collecting the non-null results in order. -/
def slistPopN {α : Type} : Nat → SlistHead α → List α × SlistHead α
  | 0, h => ([], h)
  | n + 1, h =>
    match slist_pop h with
    | (none, h1) => ([], h1)
    | (some x, h1) =>
      let r := slistPopN n h1
      (x :: r.1, r.2)

/-! ## Sorted singly-linked list (`TYPEDSORT_MAKEFUNCS`) -/

structure SsortHead (α : Type) where
  elems : List α
  count : Nat
  deriving DecidableEq, Repr

/-- `prefix_init` (sorted): zeroed head. -/
def ssort_init {α : Type} : SsortHead α := ⟨[], 0⟩

/-- The insertion scan of the sorted `prefix_add`: advance `np` while the
resident element compares strictly less than `item`, then link `item` at
`*np` unconditionally (the C body performs no equality check and returns
`void`). -/
def addScan {α : Type} (cmpfn : α → α → Int) (item : α) : List α → List α
  | [] => [item]
  | y :: ys =>
    if cmpfn y item < 0 then y :: addScan cmpfn item ys else item :: y :: ys

/-- `prefix_add` (sorted): link `item` at the scan position, bump `count`. -/
def ssort_add {α : Type} (cmpfn : α → α → Int) (h : SsortHead α) (item : α) : SsortHead α :=
  ⟨addScan cmpfn item h.elems, h.count + 1⟩

/-- The loop body of the sorted `prefix_find`.  Because of the C operator
precedence in `(cmpval = cmpfn(...) < 0)`, `cmpval` receives the boolean
result of the `< 0` comparison (0 or 1), so the post-loop test
`cmpval > 0` can never fire on a non-null `sitem`. -/
def findScan {α : Type} (cmpfn : α → α → Int) (ref : α) : List α → Option α
  | [] => none
  | y :: ys =>
    let cmpval : Int := if cmpfn y ref < 0 then 1 else 0
    if cmpval = 1 then findScan cmpfn ref ys
    else if cmpval > 0 then none
    else some y

/-- `prefix_find` (sorted). -/
def ssort_find {α : Type} (cmpfn : α → α → Int) (h : SsortHead α) (ref : α) : Option α :=
  findScan cmpfn ref h.elems

/-- `prefix_del` (sorted): identical predecessor scan to the unsorted del,
without the `last_next` fixup. -/
def ssort_del {α : Type} [DecidableEq α] (h : SsortHead α) (item : α) : SsortHead α :=
  match delScan item h.elems with
  | none => h
  | some l => ⟨l, h.count - 1⟩

/-- `prefix_pop` (sorted). -/
def ssort_pop {α : Type} (h : SsortHead α) : Option α × SsortHead α :=
  match h.elems with
  | [] => (none, h)
  | x :: rest => (some x, ⟨rest, h.count - 1⟩)

/-! ## Concrete instantiations used by the demonstrations -/

/-- Three-way comparator on naturals, `cmp(a,b) = a - b`. -/
def natCmp (a b : Nat) : Int := (a : Int) - (b : Int)

/-- Elements carrying a distinct identity (`.1`) and a compared value
(`.2`); models two distinct C objects whose values compare equal. -/
def pairCmp (a b : Nat × Nat) : Int := (a.2 : Int) - (b.2 : Int)

/-- Sorted-list state after `add`-ing items with values 5, 1, 3, 3
(identities 0..3) as in the spec's §8 example. -/
def ssortDemo : SsortHead (Nat × Nat) :=
  [(0, 5), (1, 1), (2, 3), (3, 3)].foldl (ssort_add pairCmp) ssort_init

/-- Sorted-list state holding values 1 and 5 (for the `find` bug). -/
def ssortDemo15 : SsortHead Nat :=
  [5, 1].foldl (ssort_add natCmp) ssort_init

/-! ## Hash table (`TYPEDHASH_MAKEFUNCS` and typesafe.c grow/shrink)

`struct thash_head` owns `entries` (the bucket table), `tabsize`, `count`
and the optional `maxsize`/`minsize` bounds.  Each bucket chain is a list
of `(hashval, element)` pairs; the first component is the `hashval` field
cached in `struct thash_item` (written once by `prefix_add` from the
caller's hash function). -/

structure ThashHead (α : Type) where
  entries : List (List (Nat × α))
  tabsize : Nat
  count : Nat
  maxsize : Nat
  minsize : Nat
  deriving DecidableEq, Repr

/-- `prefix_init`: all-zero head (the source header has no function that
sets `minsize`/`maxsize`, so both stay 0 through the generated API). -/
def thash_init {α : Type} : ThashHead α := ⟨[], 0, 0, 0, 0⟩

/-- The five shift-or steps of `typesafe_hash_grow`/`_shrink` that smear
the highest set bit of a `uint32_t` downwards. -/
def smear32 (n : Nat) : Nat :=
  let n := n ||| (n >>> 1)
  let n := n ||| (n >>> 2)
  let n := n ||| (n >>> 4)
  let n := n ||| (n >>> 8)
  n ||| (n >>> 16)

/-- The bucket-chain walk of `typesafe_hash_grow`: `apos` walks the chain
of old bucket `i` while `j` starts at `i + tabsize`; an entry whose masked
hash is `≥ j` is cut out together with the whole chain tail hanging off it
(`*apos = NULL; head->entries[j] = item;`), after which the walk continues
inside the moved chain with `j += tabsize`.  Returns the part of the chain
left in bucket `i` and the `(j, segment)` pairs written to upper buckets. -/
def chainCuts {α : Type} (tabsize newsize : Nat) :
    Nat → List (Nat × α) → List (Nat × α) × List (Nat × List (Nat × α))
  | _, [] => ([], [])
  | j, e :: rest =>
    if Nat.land e.1 (newsize - 1) ≥ j then
      let r := chainCuts tabsize newsize (j + tabsize) rest
      ([], (j, e :: r.1) :: r.2)
    else
      let r := chainCuts tabsize newsize j rest
      (e :: r.1, r.2)

/-- `typesafe_hash_grow`: pick the new size by smearing `count` and adding
one (clamped by `maxsize` when set), extend the bucket table with zeroed
buckets, then redistribute each old bucket with the `apos`/`j` walk. -/
def typesafe_hash_grow {α : Type} (h : ThashHead α) : ThashHead α :=
  let newsize := (smear32 (h.count % U32) + 1) % U32
  let newsize := if h.maxsize ≠ 0 ∧ newsize > h.maxsize then h.maxsize else newsize
  if newsize = h.tabsize then h
  else
    let entries := h.entries ++ List.replicate (newsize - h.tabsize) ([] : List (Nat × α))
    let entries := (List.range h.tabsize).foldl (fun es i =>
      let r := chainCuts h.tabsize newsize (i + h.tabsize) (es.getD i [])
      (r.2.foldl (fun es m => es.set m.1 m.2) (es.set i r.1))) entries
    ⟨entries, newsize, h.count, h.maxsize, h.minsize⟩

/-- One folded bucket of `typesafe_hash_shrink`: bucket `i` of the shrunk
table is the old bucket `i` with the old buckets `i + newsize`,
`i + 2*newsize`, … (in this order, the C `for (j ...)` loop) appended at
its tail. -/
def shrinkBucket {α : Type} (tabsize newsize i : Nat)
    (entries : List (List (Nat × α))) : List (Nat × α) :=
  (List.range tabsize).foldl (fun acc j =>
    if i + newsize ≤ j ∧ (j - i) % newsize = 0 then acc ++ entries.getD j []
    else acc) (entries.getD i [])

/-- `typesafe_hash_shrink`: free the table when the container is empty;
otherwise pick the shrunk size from `count` (clamped upwards by `minsize`
when set), fold every upper bucket down onto `j mod newsize`, and truncate
the table.  Each shrunk bucket only reads old buckets congruent to it, so
the folds are independent across `i`. -/
def typesafe_hash_shrink {α : Type} (h : ThashHead α) : ThashHead α :=
  if h.count = 0 then ⟨[], 0, h.count, h.maxsize, h.minsize⟩
  else
    let newsize := (smear32 (h.count % U32) + 1) % U32
    let newsize := if h.minsize ≠ 0 ∧ newsize < h.minsize then h.minsize else newsize
    if newsize = h.tabsize then h
    else
      let entries := (List.range newsize).map
        (fun i => shrinkBucket h.tabsize newsize i h.entries)
      ⟨entries, newsize, h.count, h.maxsize, h.minsize⟩

/-- The in-bucket insertion scan of the hash `prefix_add`: advance while
the resident cached hash is strictly below `hval`, then link the new entry
there unconditionally (the C body never consults `cmpfn` and returns
`void`). -/
def chainInsert {α : Type} (hval : Nat) (item : α) : List (Nat × α) → List (Nat × α)
  | [] => [(hval, item)]
  | e :: rest =>
    if e.1 < hval then e :: chainInsert hval item rest else (hval, item) :: e :: rest

/-- `prefix_add` (hash): bump `count` first, grow if the table is absent
or the grow threshold `count >= tabsize` is hit, then insert into the
bucket selected by `hashfn(item) & (tabsize - 1)` in cached-hash order. -/
def thash_add {α : Type} (hashfn : α → Nat) (h : ThashHead α) (item : α) : ThashHead α :=
  let h : ThashHead α := ⟨h.entries, h.tabsize, h.count + 1, h.maxsize, h.minsize⟩
  let h := if h.tabsize = 0 ∨ h.count ≥ h.tabsize then typesafe_hash_grow h else h
  let hval := hashfn item % U32
  let hbits := Nat.land hval (h.tabsize - 1)
  ⟨h.entries.set hbits (chainInsert hval item (h.entries.getD hbits [])),
    h.tabsize, h.count, h.maxsize, h.minsize⟩

/-- First loop of the hash `prefix_find`/`prefix_del`: skip the bucket
prefix whose cached hashes are strictly below `hval`. -/
def chainSkip {α : Type} (hval : Nat) : List (Nat × α) → List (Nat × α)
  | [] => []
  | e :: rest => if e.1 < hval then chainSkip hval rest else e :: rest

/-- Second loop of the hash `prefix_find`: walk the run of entries whose
cached hash equals `hval`, returning the first one that compares equal to
`ref` under `cmpfn`; leaving the run returns `NULL`. -/
def chainMatch {α : Type} (cmpfn : α → α → Int) (hval : Nat) (ref : α) :
    List (Nat × α) → Option α
  | [] => none
  | e :: rest =>
    if e.1 = hval then
      if cmpfn e.2 ref = 0 then some e.2 else chainMatch cmpfn hval ref rest
    else none

/-- `prefix_find` (hash). -/
def thash_find {α : Type} (hashfn : α → Nat) (cmpfn : α → α → Int)
    (h : ThashHead α) (ref : α) : Option α :=
  if h.tabsize = 0 then none
  else
    let hval := hashfn ref % U32
    let hbits := Nat.land hval (h.tabsize - 1)
    chainMatch cmpfn hval ref (chainSkip hval (h.entries.getD hbits []))

/-- Second loop of the hash `prefix_del`: advance while the slot is
non-null, is not `item` itself (pointer comparison), and still carries the
cached hash `hval`; the removal happens only if the final slot is `item`. -/
def chainDelEq {α : Type} [DecidableEq α] (hval : Nat) (item : α) :
    List (Nat × α) → Option (List (Nat × α))
  | [] => none
  | e :: rest =>
    if e.2 = item then some rest
    else if e.1 = hval then (chainDelEq hval item rest).map (e :: ·)
    else none

/-- Both del loops combined: phase one skips cached hashes below `hval`,
phase two is `chainDelEq`. -/
def chainDel {α : Type} [DecidableEq α] (hval : Nat) (item : α) :
    List (Nat × α) → Option (List (Nat × α))
  | [] => none
  | e :: rest =>
    if e.1 < hval then (chainDel hval item rest).map (e :: ·)
    else chainDelEq hval item (e :: rest)

/-- `prefix_del` (hash): return untouched when the table is empty or the
scan does not end on `item`; otherwise unlink, decrement `count` and
shrink when `count <= (tabsize - 1) / 2`. -/
def thash_del {α : Type} [DecidableEq α] (hashfn : α → Nat)
    (h : ThashHead α) (item : α) : ThashHead α :=
  if h.tabsize = 0 then h
  else
    let hval := hashfn item % U32
    let hbits := Nat.land hval (h.tabsize - 1)
    match chainDel hval item (h.entries.getD hbits []) with
    | none => h
    | some chain =>
      let h : ThashHead α :=
        ⟨h.entries.set hbits chain, h.tabsize, h.count - 1, h.maxsize, h.minsize⟩
      if h.count ≤ (h.tabsize - 1) / 2 then typesafe_hash_shrink h else h

/-- All elements resident in the bucket table, in bucket order. -/
def hashElems {α : Type} (h : ThashHead α) : List α :=
  (h.entries.map (fun c => c.map (·.2))).flatten

/-- Identity hash on naturals, a legal caller-supplied `hashfn`. -/
def natHash (a : Nat) : Nat := a

/-- Hash on identity-value pairs: hash and comparison both use the value,
so two items with distinct identities can compare equal. -/
def pairHash (a : Nat × Nat) : Nat := a.2

/-- Hash-table state after adding elements with hash values 4, 8, 1 under
the identity hash (tabsize 4; hashes 4 and 8 share bucket 0). -/
def thashDemo3 : ThashHead Nat :=
  [4, 8, 1].foldl (thash_add natHash) thash_init

/-- One more add (hash value 2): the grow from tabsize 4 to 8 moves the
hash-4 entry to bucket 4 together with the hash-8 entry chained after it. -/
def thashDemo4 : ThashHead Nat :=
  thash_add natHash thashDemo3 2

/-- Hash-table state after adding two distinct items (identities 0, 1)
with the same value 7: both hash and compare equal. -/
def thashDemoDup : ThashHead (Nat × Nat) :=
  [(0, 7), (1, 7)].foldl (thash_add pairHash) thash_init

/-! ## Skip list (`TYPEDSKIP_MAKEFUNCS` and typesafe.c skiplist functions)

`SKIPLIST_MAXDEPTH = 16`.  `sl_level_get`/`sl_level_set` hide the split
between the four inline `next` slots and the overflow block, so a node's
link state is modelled as one flat list of 16 optional successor ids and
the overflow block bookkeeping drops out.  Items are identified by a `Nat`
id; the head's `hitem` is the distinguished pointer `SkipPtr.head`.
Unbounded C loops take an explicit fuel argument and return `none` when it
runs out (the demonstrations use fuel 100). -/

/-- `SKIPLIST_MAXDEPTH`. -/
def SKIPLIST_MAXDEPTH : Nat := 16

/-- The per-node level links: flat view of `next[SKIPLIST_EMBED]` plus the
overflow block, indexed 0..15. -/
abbrev SkipLevels := List (Option Nat)

structure SskipHead where
  hnext : SkipLevels
  nodes : List (Nat × SkipLevels)
  count : Nat
  deriving DecidableEq, Repr

/-- A `struct sskip_item *` that is known non-null: either the head's
embedded `hitem` or an item id. -/
inductive SkipPtr where
  | head
  | node (id : Nat)
  deriving DecidableEq, Repr

/-- Set an id's level array in the node store. -/
def nodesSet (ns : List (Nat × SkipLevels)) (id : Nat) (ls : SkipLevels) :
    List (Nat × SkipLevels) :=
  match ns with
  | [] => [(id, ls)]
  | e :: rest => if e.1 = id then (id, ls) :: rest else e :: nodesSet rest id ls

/-- Look an id's level array up in the node store. -/
def nodesGet (ns : List (Nat × SkipLevels)) (id : Nat) : SkipLevels :=
  match ns with
  | [] => List.replicate SKIPLIST_MAXDEPTH none
  | e :: rest => if e.1 = id then e.2 else nodesGet rest id

/-- `sl_level_get` (0-counted level). -/
def slGet (st : SskipHead) (p : SkipPtr) (level : Nat) : Option Nat :=
  match p with
  | .head => st.hnext.getD level none
  | .node id => (nodesGet st.nodes id).getD level none

/-- `sl_level_set` (0-counted level). -/
def slSet (st : SskipHead) (p : SkipPtr) (level : Nat) (v : Option Nat) : SskipHead :=
  match p with
  | .head => ⟨st.hnext.set level v, st.nodes, st.count⟩
  | .node id => ⟨st.hnext, nodesSet st.nodes id ((nodesGet st.nodes id).set level v), st.count⟩

/-- `prefix_init` (skip list): zeroed head; the tagged overflow pointer it
plants in `hitem.next[SKIPLIST_OVERFLOW]` only selects the head's own
overflow array and is invisible in the flat level view. -/
def sskip_init : SskipHead := ⟨List.replicate SKIPLIST_MAXDEPTH none, [], 0⟩

/-- First loop of `typesafe_skiplist_add`, with `level`/`newlevel`
1-counted: descend while `level >= newlevel`, advancing `prev` while the
next node compares strictly below the new item.  Returns the final
`level` (now 0-counted), `prev`, and the last value read into `next`. -/
def skipAddDescend (cmpfn : Nat → Nat → Int) (st : SskipHead) (item newlevel : Nat) :
    Nat → Nat → SkipPtr → Option Nat → Option (Nat × SkipPtr × Option Nat)
  | 0, _, _, _ => none
  | fuel + 1, level, prev, next =>
    if level ≥ newlevel then
      match slGet st prev (level - 1) with
      | none => skipAddDescend cmpfn st item newlevel fuel (level - 1) prev none
      | some n =>
        if cmpfn n item < 0 then
          skipAddDescend cmpfn st item newlevel fuel level (.node n) (some n)
        else
          skipAddDescend cmpfn st item newlevel fuel (level - 1) prev (some n)
    else some (level, prev, next)

/-- Inner advance of the second loop of `typesafe_skiplist_add`: walk
`prev` forward at `level` while the successor compares strictly below
`item`; returns the final `prev` and `next`. -/
def skipAddAdvance (cmpfn : Nat → Nat → Int) (st : SskipHead) (item level : Nat) :
    Nat → SkipPtr → Option (SkipPtr × Option Nat)
  | 0, _ => none
  | fuel + 1, prev =>
    match slGet st prev level with
    | none => some (prev, none)
    | some n =>
      if cmpfn n item < 0 then skipAddAdvance cmpfn st item level fuel (.node n)
      else some (prev, some n)

/-- Second loop of `typesafe_skiplist_add`: for each remaining level below
the insertion's top level, advance and splice `item` in. -/
def skipAddLink (cmpfn : Nat → Nat → Int) (item : Nat) :
    Nat → Nat → SskipHead → SkipPtr → Option SskipHead
  | 0, _, _, _ => none
  | _ + 1, 0, st, _ => some st
  | fuel + 1, level + 1, st, prev =>
    match skipAddAdvance cmpfn st item level fuel prev with
    | none => none
    | some (prev1, next) =>
      let st := slSet st (.node item) level next
      let st := slSet st prev1 level (some item)
      skipAddLink cmpfn item fuel level st prev1

/-- `typesafe_skiplist_add`.  `newlevel` stands for the capped
`__builtin_ctz(random()) + 1`; the `memset(item, 0, ...)` becomes a reset
of the item's level array; the overflow-block allocation only provides
storage for levels above `SKIPLIST_EMBED` and drops out of the flat view.
Note the function never touches `head->count`. -/
def typesafe_skiplist_add (cmpfn : Nat → Nat → Int) (fuel : Nat) (st : SskipHead)
    (item newlevel : Nat) : Option SskipHead :=
  let st : SskipHead :=
    ⟨st.hnext, nodesSet st.nodes item (List.replicate SKIPLIST_MAXDEPTH none), st.count⟩
  match skipAddDescend cmpfn st item newlevel fuel SKIPLIST_MAXDEPTH .head none with
  | none => none
  | some (level, prev, next) =>
    let st := slSet st (.node item) level next
    let st := slSet st prev level (some item)
    skipAddLink cmpfn item fuel level st prev

/-- The single loop of `typesafe_skiplist_del` (`level` 1-counted):
unlink `item` at every level where it is the successor, advance on
strictly-smaller nodes, descend otherwise. -/
def skipDelLoop (cmpfn : Nat → Nat → Int) (item : Nat) :
    Nat → Nat → SskipHead → SkipPtr → Option SskipHead
  | 0, _, _, _ => none
  | _ + 1, 0, st, _ => some st
  | fuel + 1, level + 1, st, prev =>
    match slGet st prev level with
    | none => skipDelLoop cmpfn item fuel level st prev
    | some n =>
      if n = item then
        let st := slSet st prev level (slGet st (.node item) level)
        skipDelLoop cmpfn item fuel level st prev
      else if cmpfn n item < 0 then
        skipDelLoop cmpfn item fuel (level + 1) st (.node n)
      else
        skipDelLoop cmpfn item fuel level st prev

/-- `typesafe_skiplist_del`: run the unlink loop, free the overflow block
if the item had one (a no-op in the flat view), and `memset` the item's
link state.  The function never touches `head->count`. -/
def typesafe_skiplist_del (cmpfn : Nat → Nat → Int) (fuel : Nat) (st : SskipHead)
    (item : Nat) : Option SskipHead :=
  (skipDelLoop cmpfn item fuel SKIPLIST_MAXDEPTH st .head).map
    (fun st => ⟨st.hnext, nodesSet st.nodes item (List.replicate SKIPLIST_MAXDEPTH none),
      st.count⟩)

/-- `prefix_pop` (skip list): `NULL` on an empty list, else delete and
return `hitem.next[0]`. -/
def sskip_pop (cmpfn : Nat → Nat → Int) (fuel : Nat) (st : SskipHead) :
    Option (Option Nat × SskipHead) :=
  match st.hnext.getD 0 none with
  | none => some (none, st)
  | some first => (typesafe_skiplist_del cmpfn fuel st first).map (fun st1 => (some first, st1))

/-- `prefix_count` (skip list): reads `sh.count`. -/
def sskip_count (st : SskipHead) : Nat := st.count

/-- The full `prefix_first`/`prefix_next` traversal along level 0. -/
def sskipTraverse (st : SskipHead) : Nat → Option Nat → List Nat
  | 0, _ => []
  | _, none => []
  | fuel + 1, some i => i :: sskipTraverse st fuel (slGet st (.node i) 0)

/-- Level-0 traversal starting at `prefix_first`. -/
def sskipTraversal (st : SskipHead) (fuel : Nat) : List Nat :=
  sskipTraverse st fuel (st.hnext.getD 0 none)

/-- Skip list after a single `add` of item 42 with random level 1. -/
def sskipDemo1 : Option SskipHead :=
  typesafe_skiplist_add natCmp 100 sskip_init 42 1

/-! ## Helper lemmas -/

theorem delScan_eq_none_of_not_mem {α : Type} [DecidableEq α] {item : α} :
    ∀ {l : List α}, item ∉ l → delScan item l = none := by
  intro l
  induction l with
  | nil => intro _; rfl
  | cons y ys ih =>
    intro hmem
    have hy : y ≠ item := fun h => hmem (h ▸ List.mem_cons_self y ys)
    have hys : item ∉ ys := fun h => hmem (List.mem_cons_of_mem y h)
    simp [delScan, hy, ih hys]

theorem chainDelEq_eq_none_of_not_mem {α : Type} [DecidableEq α] {item : α} {hval : Nat} :
    ∀ {c : List (Nat × α)}, item ∉ c.map (·.2) → chainDelEq hval item c = none := by
  intro c
  induction c with
  | nil => intro _; rfl
  | cons e rest ih =>
    intro hmem
    have he : e.2 ≠ item := by
      intro h
      exact hmem (by simp [h])
    have hrest : item ∉ rest.map (·.2) := by
      intro h
      exact hmem (by simp_all)
    by_cases hv : e.1 = hval <;> simp [chainDelEq, he, hv, ih hrest]

theorem chainDel_eq_none_of_not_mem {α : Type} [DecidableEq α] {item : α} {hval : Nat} :
    ∀ {c : List (Nat × α)}, item ∉ c.map (·.2) → chainDel hval item c = none := by
  intro c
  induction c with
  | nil => intro _; rfl
  | cons e rest ih =>
    intro hmem
    have hrest : item ∉ rest.map (·.2) := by
      intro h
      exact hmem (by simp_all)
    by_cases hl : e.1 < hval
    · simp [chainDel, hl, ih hrest]
    · simp [chainDel, hl, chainDelEq_eq_none_of_not_mem hmem]

theorem not_mem_getD_of_not_mem_hashElems {α : Type} {z : α} :
    ∀ (es : List (List (Nat × α))) (i : Nat),
      z ∉ (es.map (fun c => c.map (·.2))).flatten → z ∉ (es.getD i []).map (·.2) := by
  intro es
  induction es with
  | nil => intro i _; simp [List.getD]
  | cons c rest ih =>
    intro i hmem
    cases i with
    | zero =>
      intro h
      exact hmem (by simp_all)
    | succ j =>
      have : z ∉ (rest.map (fun c => c.map (·.2))).flatten := by
        intro h
        exact hmem (by simp_all)
      simpa [List.getD] using ih j this

theorem foldl_add_head_eq {α : Type} :
    ∀ (xs : List α) (l : List α) (c : Nat),
      xs.foldl slist_add_head ⟨l, c⟩ = ⟨xs.reverse ++ l, c + xs.length⟩ := by
  intro xs
  induction xs with
  | nil => intro l c; rfl
  | cons x xs ih =>
    intro l c
    show xs.foldl slist_add_head ⟨x :: l, c + 1⟩ = _
    rw [ih (x :: l) (c + 1)]
    simp [Nat.add_comm, Nat.add_assoc, Nat.add_left_comm]

theorem foldl_add_tail_eq {α : Type} :
    ∀ (xs : List α) (l : List α) (c : Nat),
      xs.foldl slist_add_tail ⟨l, c⟩ = ⟨l ++ xs, c + xs.length⟩ := by
  intro xs
  induction xs with
  | nil => intro l c; simp
  | cons x xs ih =>
    intro l c
    show xs.foldl slist_add_tail ⟨l ++ [x], c + 1⟩ = _
    rw [ih (l ++ [x]) (c + 1)]
    simp [Nat.add_comm, Nat.add_assoc, Nat.add_left_comm]

theorem slistPopN_full {α : Type} :
    ∀ (l : List α) (c : Nat), slistPopN l.length ⟨l, c⟩ = (l, ⟨[], c - l.length⟩) := by
  intro l
  induction l with
  | nil => intro c; rfl
  | cons x rest ih =>
    intro c
    show slistPopN (rest.length + 1) ⟨x :: rest, c⟩ = _
    simp only [slistPopN, slist_pop, ih (c - 1), Nat.sub_sub, List.length_cons]
    rw [Nat.add_comm]

/-! ## Claim theorems -/

/-- C1: the sorted `prefix_add` of this source performs no duplicate
rejection and returns `void`: adding items with values 5, 1, 3, 3 links
all four, so two resident elements compare equal, the count is 4 and the
traversal yields the values 1, 3, 3, 5 — contradicting the claimed
"insertion is rejected and add returns the existing element"
behaviour (which the repository's own list documentation also promises). -/
theorem c1_sorted_add_stores_duplicate :
    ssortDemo.elems.map (·.2) = [1, 3, 3, 5] ∧ ssortDemo.count = 4 ∧
      (2, 3) ∈ ssortDemo.elems ∧ (3, 3) ∈ ssortDemo.elems ∧
      pairCmp (2, 3) (3, 3) = 0 := by
  refine ⟨by decide, by decide, by decide, by decide, by decide⟩

/-- C2: the condition of `nextp = after ? &h->sh.first : &after->...next`
in the unsorted `prefix_add_after` is inverted: a non-null anchor inserts
the item at the head of the list (not after the anchor), and a null
anchor dereferences the null pointer (modelled as `none`). -/
theorem c2_add_after_inverted :
    slist_add_after ⟨[10], 1⟩ (some 10) 20 = some ⟨[20, 10], 2⟩ ∧
      slist_add_after (⟨[10], 1⟩ : SlistHead Nat) none 20 = none := by
  exact ⟨rfl, rfl⟩

/-- C3: because `(cmpval = cmpfn(...) < 0)` assigns the boolean result of
the comparison, the sorted `prefix_find` returns the first element that
does not compare strictly less than the reference even when it is
strictly greater: on the list with values 1 and 5, `find(3)` returns the
element 5 although no resident element compares equal to 3. -/
theorem c3_find_returns_unequal_element :
    ssortDemo15.elems = [1, 5] ∧ ssort_find natCmp ssortDemo15 3 = some 5 ∧
      ssortDemo15.elems.all (fun y => natCmp y 3 ≠ 0) := by
  refine ⟨by decide, by decide, by decide⟩

/-- C4: `typesafe_skiplist_add` (and `_del`) never touch `head->count`,
so after a single add of one element the skip-list `count()` still reads
0 while the full level-0 traversal visits one element. -/
theorem c4_skiplist_count_diverges_from_traversal :
    sskipDemo1.map sskip_count = some 0 ∧
      sskipDemo1.map (fun st => (sskipTraversal st 100).length) = some 1 := by
  refine ⟨by decide, by decide⟩

/-- C5: growing the table can lose findability.  With the identity hash,
adding 4, 8, 1 gives tabsize 4 with hashes 4 and 8 chained in bucket 0
and `find(8)` succeeding; the fourth add (hash 2) grows the table to 8,
and the grow loop moves the hash-4 entry to bucket 4 together with the
whole chain tail, dragging the hash-8 entry (whose masked index stays 0)
into bucket 4: `find(8)` then searches bucket 0 and returns null although
the element is still resident. -/
theorem c5_hash_grow_loses_findability :
    thash_find natHash natCmp thashDemo3 8 = some 8 ∧
      thashDemo4 = thash_add natHash thashDemo3 2 ∧
      thash_find natHash natCmp thashDemo4 8 = none ∧
      8 ∈ hashElems thashDemo4 := by
  refine ⟨by decide, rfl, by decide, by decide⟩

/-- C6: the hash `prefix_add` of this source never calls the equality
function and returns `void`: adding two distinct items that hash and
compare equal stores both of them (count 2), contradicting the claimed
rejection-and-return of the resident equal element (which the
repository's own list documentation also promises). -/
theorem c6_hash_add_stores_equal_duplicate :
    thashDemoDup.count = 2 ∧ (0, 7) ∈ hashElems thashDemoDup ∧
      (1, 7) ∈ hashElems thashDemoDup ∧ pairCmp (0, 7) (1, 7) = 0 := by
  refine ⟨by decide, by decide, by decide, by decide⟩

/-- C7: in the reachable state `thashDemo4` the table size is 8, yet the
resident element with cached hash 8 sits in the chain of bucket 4 while
`8 & (8 - 1) = 0`: the claimed bucket-placement invariant is violated by
`typesafe_hash_grow`. -/
theorem c7_hash_bucket_invariant_violated :
    thashDemo4.tabsize = 8 ∧
      thashDemo4.entries.getD 4 [] = [(4, 4), (8, 8)] ∧
      Nat.land (natHash 8 % U32) (thashDemo4.tabsize - 1) = 0 := by
  refine ⟨by decide, by decide, by decide⟩

/-- C8: round-trip on the unsorted list: pushing the elements of `xs`
with `add_head` and popping `|xs|` times returns exactly `xs` reversed
(LIFO) and restores the empty, zero-count head; pushing with `add_tail`
and popping returns `xs` in order (FIFO). -/
theorem c8_unsorted_roundtrip {α : Type} (xs : List α) :
    slistPopN xs.length (xs.foldl slist_add_head slist_init) = (xs.reverse, slist_init) ∧
      slistPopN xs.length (xs.foldl slist_add_tail slist_init) = (xs, slist_init) := by
  constructor
  · have h1 := foldl_add_head_eq xs [] 0
    rw [slist_init, h1]
    have h2 := slistPopN_full (xs.reverse) (0 + xs.length)
    rw [List.length_reverse] at h2
    simp_all [slist_init]
  · have h1 := foldl_add_tail_eq xs [] 0
    rw [slist_init, h1]
    have h2 := slistPopN_full xs (0 + xs.length)
    simp_all [slist_init]

/-- C9: the skip-list `prefix_pop` removes and returns the first element,
but the count is not decremented — it reads 0 both before and after the
pop because neither `typesafe_skiplist_add` nor `typesafe_skiplist_del`
maintains `head->count`; the element is nevertheless gone from the
traversal. -/
theorem c9_skiplist_pop_does_not_decrement_count :
    sskipDemo1.map (fun st => sskipTraversal st 100) = some [42] ∧
      sskipDemo1.map sskip_count = some 0 ∧
      (sskipDemo1.bind (sskip_pop natCmp 100)).map
        (fun p => (p.1, sskip_count p.2, sskipTraversal p.2 100)) =
        some (some 42, 0, []) := by
  refine ⟨by decide, by decide, by decide⟩

/-- C10: for the unsorted list, the sorted list and the hash table,
deleting an element that is not resident returns without modifying the
container: head, count, chains and linkage are exactly as before. -/
theorem c10_del_non_member_is_noop {α : Type} [DecidableEq α] (hashfn : α → Nat)
    (lh : SlistHead α) (sh : SsortHead α) (hh : ThashHead α) (x y z : α)
    (hx : x ∉ lh.elems) (hy : y ∉ sh.elems) (hz : z ∉ hashElems hh) :
    slist_del lh x = lh ∧ ssort_del sh y = sh ∧ thash_del hashfn hh z = hh := by
  refine ⟨?_, ?_, ?_⟩
  · simp [slist_del, delScan_eq_none_of_not_mem hx]
  · simp [ssort_del, delScan_eq_none_of_not_mem hy]
  · unfold thash_del
    by_cases ht : hh.tabsize = 0
    · simp [ht]
    · have hchain := not_mem_getD_of_not_mem_hashElems hh.entries
        (Nat.land (hashfn z % U32) (hh.tabsize - 1)) hz
      have hnone := @chainDel_eq_none_of_not_mem α _ z (hashfn z % U32)
        (hh.entries.getD (Nat.land (hashfn z % U32) (hh.tabsize - 1)) []) hchain
      rw [if_neg ht]
      simp only [hnone]

/-- Closed instance of `c10_del_non_member_is_noop`: deleting the
non-member 9 from an unsorted list holding 1 and 2, from a sorted list
holding 3, and from the three-element hash table `thashDemo3` leaves each
container unchanged. -/
theorem c10_del_non_member_witness :
    (9 ∉ (⟨[1, 2], 2⟩ : SlistHead Nat).elems) ∧
      (9 ∉ (⟨[3], 1⟩ : SsortHead Nat).elems) ∧
      (9 ∉ hashElems thashDemo3) ∧
      (slist_del ⟨[1, 2], 2⟩ 9 = (⟨[1, 2], 2⟩ : SlistHead Nat) ∧
        ssort_del ⟨[3], 1⟩ 9 = (⟨[3], 1⟩ : SsortHead Nat) ∧
        thash_del natHash thashDemo3 9 = thashDemo3) :=
  ⟨by decide, by decide, by decide,
    c10_del_non_member_is_noop natHash ⟨[1, 2], 2⟩ ⟨[3], 1⟩ thashDemo3 9 9 9
      (by decide) (by decide) (by decide)⟩

end Typesafe
